import Mathlib

/-!
Verification development for a news-aggregation backend consisting of four
Python modules: nlp_utils.py (NLP annotation over external models),
api_utils.py (news API client with response caching and article enrichment),
db_utils.py (SQLite persistence accessors), and analytics_utils.py.

The modules are embedded shallowly: external services (polarity scorer,
tokenizer, NER tagger, summarizer, HTTP transport, SQL engine) are oracle
parameters; the caching, thresholding, aggregation and error-conversion
logic of the repository itself is translated directly from the source.
Machine floats are modelled over the rationals and reals; Python dict and
exception behaviour is modelled with Option and Except.
-/



/-- Association-list lookup, modelling a Python dict membership test plus
subscript access (the pattern "if key in cache: return cache[key]"). -/
def lookupAssoc {α : Type} : List (String × α) → String → Option α
  | [], _ => none
  | e :: c, k => if e.1 = k then some e.2 else lookupAssoc c k

/-!
### Cache model (cachetools.TTLCache)

nlp_utils.py line 19 creates `cache = TTLCache(maxsize=100, ttl=300)` and
api_utils.py line 15 creates `news_cache = TTLCache(maxsize=100, ttl=1800)`.
A TTLCache entry is stored with an expiry time equal to the insertion time
plus the ttl; an entry is expired once the current time reaches its expiry
time (cachetools expires entries when `expires <= now`). On insertion the
cache first drops expired entries, then overwrites the key, then evicts
oldest entries while over capacity. The LRU reordering that cachetools
performs on reads is not modelled (no claim depends on eviction order).
Time is modelled by an explicit natural-number clock passed to get and put.
-/

structure TTLCache (κ α : Type) where
  entries : List (κ × α × ℕ)
  maxsize : ℕ
  ttl : ℕ

/-- Lookup in a TTLCache at time `now`: an entry whose expiry time has been
reached is a miss. -/
def TTLCache.get {κ α : Type} [DecidableEq κ] (c : TTLCache κ α) (k : κ) (now : ℕ) :
    Option α :=
  match c.entries.find? (fun e => decide (e.1 = k)) with
  | some e => if now < e.2.2 then some e.2.1 else none
  | none => none

/-- Insertion into a TTLCache at time `now`: expired entries are dropped,
an existing entry for the key is removed, oldest entries are evicted while
the cache is at capacity, and the new entry is appended with expiry time
`now + ttl`. -/
def TTLCache.put {κ α : Type} [DecidableEq κ] (c : TTLCache κ α) (k : κ) (v : α) (now : ℕ) :
    TTLCache κ α :=
  let live := c.entries.filter (fun e => decide (now < e.2.2))
  let without := live.filter (fun e => decide (e.1 ≠ k))
  let room := if c.maxsize ≤ without.length
    then without.drop (without.length + 1 - c.maxsize) else without
  { c with entries := room ++ [(k, v, now + c.ttl)] }

/-- The NLP-layer cache instance of nlp_utils.py line 19: capacity 100,
ttl 300 seconds (five minutes). -/
def cache : TTLCache String String := ⟨[], 100, 300⟩

/-- The API-layer cache instance of api_utils.py line 15: capacity 100,
ttl 1800 seconds (thirty minutes). -/
def news_cache' : TTLCache String String := ⟨[], 100, 1800⟩

/-!
### NLP layer (nlp_utils.py)

External models are oracle parameters: the TextBlob polarity scorer is a
function String to Option of a rational (none models a raised exception),
the spaCy tokenizer returns a token list with the attribute flags the code
reads, the NER tagger and the newspaper summarizer are likewise functions.
The module-level TTL cache is modelled per operation as an association
list snapshot keyed by the same string keys the code builds; the Python
hash of the text is modelled as the text itself (an injective abstraction
of the hash). Expiry of NLP cache entries is orthogonal to the claims
below and is not threaded through these operations.
-/

/-- Threshold mapping of nlp_utils.analyze_sentiment lines 60 to 68: the
polarity is mapped to positive above 0.1, negative below minus 0.1, and
neutral otherwise; a raised exception (none) yields neutral. -/
def sentimentOfPolarity : Option ℚ → String
  | none => "neutral"
  | some p => if 1/10 < p then "positive" else if p < -(1/10) then "negative" else "neutral"

/-- Embedding of NLPProcessor.analyze_sentiment (nlp_utils.py lines 47 to 74).
Returns the result, the updated cache, and whether TextBlob was invoked.
Missing text (none) and empty text short-circuit to neutral; a cache hit
returns the cached string; otherwise the polarity oracle is consulted and
a successful result is cached (the exception path caches nothing). -/
def analyze_sentiment (polarity : String → Option ℚ) (c : List (String × String))
    (text : Option String) : String × List (String × String) × Bool :=
  match text with
  | none => ("neutral", c, false)
  | some t =>
    if t = "" then ("neutral", c, false)
    else
      match lookupAssoc c ("sentiment_" ++ t) with
      | some v => (v, c, false)
      | none =>
        match polarity t with
        | none => ("neutral", c, true)
        | some p =>
          (sentimentOfPolarity (some p), ("sentiment_" ++ t, sentimentOfPolarity (some p)) :: c, true)

/-- Sentiment cache well-formedness: every cached entry is the value the
threshold mapping produces for its text, which is exactly the invariant the
code maintains, since line 70 stores only values computed by lines 63 to 68. -/
def wfSentCache (polarity : String → Option ℚ) (c : List (String × String)) : Prop :=
  ∀ t v, lookupAssoc c ("sentiment_" ++ t) = some v → v = sentimentOfPolarity (polarity t)

/-- Projection of the spaCy token attributes that extract_keywords reads:
the token text and the three boolean flags used by the filter on
nlp_utils.py lines 89 to 90. -/
structure Token where
  text : String
  is_stop : Bool
  is_punct : Bool
  is_alpha : Bool
deriving DecidableEq

/-- Character-level lowercasing of a string, modelling the Python lower
method on the token text. -/
def lowerStr (s : String) : String := ⟨s.data.map Char.toLower⟩

/-- Keyword candidates of a text (nlp_utils.py lines 88 to 90): the tokens
produced by the tokenizer oracle, with stopwords, punctuation and
non-alphabetic tokens discarded, lowercased. -/
def keywordsOf (tok : String → List Token) (t : String) : List String :=
  ((tok t).filter (fun w => !w.is_stop && !w.is_punct && w.is_alpha)).map
    (fun w => lowerStr w.text)

/-- Distinct elements of a list in order of first occurrence, modelling the
key order of a Python Counter built from the list. -/
def uniqueKeysAux : List String → List String → List String
  | [], _ => []
  | w :: ws, seen =>
    if w ∈ seen then uniqueKeysAux ws seen else w :: uniqueKeysAux ws (w :: seen)

/-- Items of a Python Counter over the list: each distinct element paired
with its number of occurrences. -/
def counterItems (l : List String) : List (String × ℕ) :=
  (uniqueKeysAux l []).map (fun w => (w, l.count w))

/-- Descending-count comparison used to model Counter.most_common. -/
def countGE (x y : String × ℕ) : Prop := y.2 ≤ x.2

instance : DecidableRel countGE := fun x y => Nat.decLe y.2 x.2

instance : IsTotal (String × ℕ) countGE := ⟨fun a b => le_total b.2 a.2⟩

instance : IsTrans (String × ℕ) countGE := ⟨fun _ _ _ h1 h2 => le_trans h2 h1⟩

/-- Counter.most_common(n): the counter items sorted by count descending,
truncated to the first n entries. -/
def most_common (n : ℕ) (l : List String) : List (String × ℕ) :=
  (List.insertionSort countGE (counterItems l)).take n

/-- Embedding of NLPProcessor.extract_keywords (nlp_utils.py lines 76 to
100). Returns the result list and the updated cache. Note that the cache
key is built from the text only and does not mention top_n, so a cache hit
returns whatever entry an earlier call stored, regardless of the current
top_n argument. -/
def extract_keywords (tok : String → List Token)
    (c : List (String × List (String × ℕ))) (text : Option String) (top_n : ℕ) :
    List (String × ℕ) × List (String × List (String × ℕ)) :=
  match text with
  | none => ([], c)
  | some t =>
    if t = "" then ([], c)
    else
      match lookupAssoc c ("keywords_" ++ t) with
      | some v => (v, c)
      | none =>
        (most_common top_n (keywordsOf tok t),
         ("keywords_" ++ t, most_common top_n (keywordsOf tok t)) :: c)

/-- C2 counterexample tokenizer: every text tokenizes to two plain
alphabetic tokens. -/
def tokCE : String → List Token :=
  fun _ => [⟨"alpha", false, false, true⟩, ⟨"beta", false, false, true⟩]

/-- Embedding of NLPProcessor.get_named_entities (nlp_utils.py lines 161 to
179): missing or empty text yields the empty list, a cache hit returns the
cached entity list, otherwise the spaCy oracle is consulted and an
exception (none) is converted to the empty list, successful results being
cached. Returns the entity list and the updated cache. -/
def get_named_entities (ner : String → Option (List (String × String)))
    (c : List (String × List (String × String))) (text : Option String) :
    List (String × String) × List (String × List (String × String)) :=
  match text with
  | none => ([], c)
  | some t =>
    if t = "" then ([], c)
    else
      match lookupAssoc c ("ner_" ++ t) with
      | some v => (v, c)
      | none =>
        match ner t with
        | none => ([], c)
        | some es => (es, ("ner_" ++ t, es) :: c)

/-- Embedding of NLPProcessor.summarize_article (nlp_utils.py lines 102 to
121): a cache hit returns the cached summary, otherwise the newspaper
download-parse-nlp pipeline oracle is consulted; any failure (none) is
converted to no summary, successful summaries being cached. -/
def summarize_article (summ : String → Option String) (c : List (String × String))
    (url : String) : Option String × List (String × String) :=
  match lookupAssoc c ("summary_" ++ url) with
  | some v => (some v, c)
  | none =>
    match summ url with
    | none => (none, c)
    | some s => (some s, ("summary_" ++ url, s) :: c)

/-!
### News API client (api_utils.py)

Articles are Python dicts; the fields the client reads and writes are
modelled as optional fields of a structure (a missing dict key is none).
The summary field is doubly optional because the code stores the possibly
absent result of summarize_article under the key summary.
-/

structure Article where
  title : Option String
  description : Option String
  url : Option String
  sentiment : Option String
  keywords : Option (List (String × ℕ))
  named_entities : Option (List (String × String))
  summary : Option (Option String)
deriving DecidableEq

/-- Oracle and cache-snapshot bundle for one enrichment pass: the external
models consulted by the NLP layer together with the module-level cache
contents visible to the pass. -/
structure NLPOracles where
  polarity : String → Option ℚ
  tok : String → List Token
  ner : String → Option (List (String × String))
  summ : String → Option String
  scache : List (String × String)
  kcache : List (String × List (String × ℕ))
  ncache : List (String × List (String × String))
  ucache : List (String × String)

/-- Body of the per-article try block of NewsAPIClient.enrich_articles
(api_utils.py lines 63 to 76): the analysis text is the title and the
description joined by a space (missing fields defaulting to the empty
string), the article receives sentiment, top five keywords and named
entities, and a summary when a nonempty url is present. -/
def enrichArticle (O : NLPOracles) (a : Article) : Article :=
  let text := (a.title.getD "") ++ " " ++ (a.description.getD "")
  let a1 := { a with
    sentiment := some (analyze_sentiment O.polarity O.scache (some text)).1,
    keywords := some (extract_keywords O.tok O.kcache (some text) 5).1,
    named_entities := some (get_named_entities O.ner O.ncache (some text)).1 }
  match a.url with
  | some u => if u = "" then a1 else { a1 with summary := some (summarize_article O.summ O.ucache u).1 }
  | none => a1

/-- Embedding of NewsAPIClient.enrich_articles (api_utils.py lines 57 to
81): each article is mapped through the per-article step; a step failure
(none, modelling an exception caught by the per-article except clause)
appends the original article unchanged. -/
def enrich_articles (step : Article → Option Article) (articles : List Article) :
    List Article :=
  articles.map (fun a => (step a).getD a)

/-- Concrete article with a title and no description, used by the witness
for C3. -/
def articleCE : Article := ⟨some "a", none, none, none, none, none, none⟩

/-- Concrete oracle bundle with empty caches, used by the witness for C3. -/
def oraclesCE : NLPOracles :=
  ⟨fun _ => some 0, fun _ => [], fun _ => some [], fun _ => none, [], [], [], []⟩

/-- Query-parameter value: the News API client sends strings and integers. -/
inductive PVal where
  | str (s : String)
  | nat (n : ℕ)
deriving DecidableEq

/-- Response body of the News API as far as the client reads it: the status
field and the articles array (absent when the response carries none). -/
structure Resp where
  status : String
  articles : Option (List Article)
deriving DecidableEq

/-- Comparison of parameters by name, modelling json.dumps with sorted
keys when the request cache key is built. -/
def keyLE (x y : String × PVal) : Prop := x.1 ≤ y.1

instance : DecidableRel keyLE := fun x y => inferInstanceAs (Decidable (x.1 ≤ y.1))

/-- Parameters sorted by name, as used in the cache key of
api_utils._make_request line 29. -/
def sortParams (ps : List (String × PVal)) : List (String × PVal) :=
  List.insertionSort keyLE ps

/-- Mutable state of a NewsAPIClient run: the module-level response cache
and the number of outbound HTTP GET requests issued so far. -/
structure ClientState where
  news_cache : TTLCache (String × List (String × PVal)) Resp
  requests : ℕ

/-- Embedding of NewsAPIClient._make_request (api_utils.py lines 24 to 55).
The HTTP transport is an oracle indexed by the request count (the value of
the n-th outbound GET); none models a requests exception (network failure
or a non-2xx raise_for_status). The api key is added to the parameters
before the cache key, endpoint plus name-sorted parameters, is computed.
A cache hit returns the cached body with no request; otherwise a GET is
issued, and only a body whose status field is ok is cached and returned,
any other outcome yielding none. -/
def make_request (http : ℕ → Option Resp) (api_key : String) (st : ClientState)
    (endpoint : String) (params : List (String × PVal)) (now : ℕ) :
    Option Resp × ClientState :=
  let key := (endpoint, sortParams (params ++ [("apiKey", PVal.str api_key)]))
  match st.news_cache.get key now with
  | some data => (some data, st)
  | none =>
    match http st.requests with
    | none => (none, ⟨st.news_cache, st.requests + 1⟩)
    | some data =>
      if data.status = "ok"
      then (some data, ⟨st.news_cache.put key data now, st.requests + 1⟩)
      else (none, ⟨st.news_cache, st.requests + 1⟩)

/-- Optional string filter parameter: Python only adds it when the value is
truthy, that is, present and nonempty. -/
def optStrParam (name : String) (v : Option String) : List (String × PVal) :=
  match v with
  | some s => if s = "" then [] else [(name, PVal.str s)]
  | none => []

/-- Parameter set built by NewsAPIClient.get_top_headlines (api_utils.py
lines 92 to 102): pageSize clamped to the API limit of 100, page passed
through, then the optional country, category and query filters. -/
def headlinesParams (country category q : Option String) (page_size page : ℕ) :
    List (String × PVal) :=
  [("pageSize", PVal.nat (min page_size 100)), ("page", PVal.nat page)]
    ++ optStrParam "country" country ++ optStrParam "category" category
    ++ optStrParam "q" q

/-- Parameter set built by NewsAPIClient.search_everything (api_utils.py
lines 121 to 132): query, language, sort order, pageSize clamped to 100,
page passed through, then the optional date bounds (datetime arguments are
always truthy, so presence alone is tested). -/
def searchParams (q : String) (from_date to_date : Option String)
    (language sort_by : String) (page_size page : ℕ) : List (String × PVal) :=
  [("q", PVal.str q), ("language", PVal.str language), ("sortBy", PVal.str sort_by),
   ("pageSize", PVal.nat (min page_size 100)), ("page", PVal.nat page)]
    ++ (match from_date with | some d => [("from", PVal.str d)] | none => [])
    ++ (match to_date with | some d => [("to", PVal.str d)] | none => [])

/-- Embedding of NewsAPIClient.get_top_headlines (api_utils.py lines 83 to
108): builds the filter parameters, performs the cached request against the
root endpoint, and passes the articles of a successful response through
enrich_articles, an absent articles array or a failed request yielding the
empty list. -/
def get_top_headlines (http : ℕ → Option Resp) (api_key : String)
    (step : Article → Option Article) (st : ClientState)
    (country category q : Option String) (page_size page : ℕ) (now : ℕ) :
    List Article × ClientState :=
  let pr := make_request http api_key st ""
    (headlinesParams country category q page_size page) now
  match pr.1 with
  | some data =>
    match data.articles with
    | some arts => (enrich_articles step arts, pr.2)
    | none => ([], pr.2)
  | none => ([], pr.2)

/-- Embedding of NewsAPIClient.search_everything (api_utils.py lines 110
to 138), analogous to get_top_headlines against the everything endpoint. -/
def search_everything (http : ℕ → Option Resp) (api_key : String)
    (step : Article → Option Article) (st : ClientState)
    (q : String) (from_date to_date : Option String) (language sort_by : String)
    (page_size page : ℕ) (now : ℕ) : List Article × ClientState :=
  let pr := make_request http api_key st "/everything"
    (searchParams q from_date to_date language sort_by page_size page) now
  match pr.1 with
  | some data =>
    match data.articles with
    | some arts => (enrich_articles step arts, pr.2)
    | none => ([], pr.2)
  | none => ([], pr.2)

/-- HTTP oracle on which every outbound request fails with a transport
error, for the C8 counterexample. -/
def httpFail : ℕ → Option Resp := fun _ => none

/-- Fresh client state: empty response cache of the configured capacity and
ttl of api_utils.py line 15, no requests issued. -/
def st0 : ClientState := ⟨⟨[], 100, 1800⟩, 0⟩

/-- Successful response with no articles, for the C8 witness. -/
def respOK : Resp := ⟨"ok", some []⟩

/-- HTTP oracle answering every request with the ok response, for the C8
witness. -/
def httpOK : ℕ → Option Resp := fun _ => respOK

/-!
### Persistence layer (db_utils.py)

The SQLite driver is an oracle mapping a query string and its parameters to
either an error (a raised sqlite3.Error) or a list of rows; a row is a list
of SQL values. DatabaseManager.execute_query logs, rolls back and re-raises
driver errors, which the Except monad models by propagating the error
value. Query strings are abbreviated to their leading keywords; the oracle
is universally quantified, so their exact text is immaterial to the
theorems. -/

inductive SQLValue where
  | null
  | int (i : ℤ)
  | text (s : String)
deriving DecidableEq

/-- Driver oracle: query and parameters to error or result rows. -/
def Engine : Type := String → List SQLValue → Except String (List (List SQLValue))

/-- Embedding of DatabaseManager.execute_query (db_utils.py lines 19 to
46): a driver error is re-raised after rollback; otherwise the fetched rows
(or nothing, when fetch is false) are returned. -/
def execute_query (engine : Engine) (query : String) (params : List SQLValue)
    (fetch : Bool) : Except String (Option (List (List SQLValue))) :=
  match engine query params with
  | Except.error e => Except.error e
  | Except.ok rows => Except.ok (if fetch then some rows else none)

/-- Embedding of DatabaseManager.get_user (db_utils.py lines 64 to 75): no
exception handling of its own, so a driver error propagates; a nonempty
result maps the first row (id, username, created_at) to the returned
record, an empty one maps to none. -/
def get_user (engine : Engine) (username : String) :
    Except String (Option (List SQLValue)) := do
  let result ← execute_query engine "SELECT FROM users" [SQLValue.text username] true
  match result with
  | some (row :: _) => pure (some (row.take 3))
  | _ => pure none

/-- Embedding of DatabaseManager.verify_user (db_utils.py lines 77 to 81):
no exception handling of its own; returns the truthiness of the fetched
row list. -/
def verify_user (engine : Engine) (username password : String) :
    Except String Bool := do
  let result ← execute_query engine "SELECT id FROM users"
    [SQLValue.text username, SQLValue.text password] true
  match result with
  | some rows => pure (!rows.isEmpty)
  | none => pure false

/-- The preference record written by update_user_preferences. -/
structure Preferences where
  categories : List String
  countries : List String
  language : String
  sentiment : String

/-- Embedding of DatabaseManager.update_user_preferences (db_utils.py lines
102 to 124): the broad except clause converts any failure into False. -/
def update_user_preferences (engine : Engine) (user_id : ℤ) (p : Preferences) :
    Except String Bool :=
  match execute_query engine "UPDATE user_preferences"
      [SQLValue.text (String.intercalate "," p.categories),
       SQLValue.text (String.intercalate "," p.countries),
       SQLValue.text p.language, SQLValue.text p.sentiment,
       SQLValue.int user_id] false with
  | Except.ok _ => Except.ok true
  | Except.error _ => Except.ok false

/-- Embedding of DatabaseManager.add_reading_history (db_utils.py lines 127
to 144): a missing url key raises KeyError inside the try block, which the
broad except clause converts to False, as it does any driver error. -/
def add_reading_history (engine : Engine) (user_id : ℤ) (url : Option String)
    (title category : Option String) : Except String Bool :=
  match url with
  | none => Except.ok false
  | some u =>
    match execute_query engine "INSERT INTO reading_history"
        [SQLValue.int user_id, SQLValue.text u,
         title.elim SQLValue.null SQLValue.text,
         category.elim SQLValue.null SQLValue.text] false with
    | Except.ok _ => Except.ok true
    | Except.error _ => Except.ok false

/-!
Users table model for create_user. The users table has a unique username
column; the insert is modelled by SQLite semantics: it fails with an
integrity error when the username exists (execute_query then rolls the
transaction back, leaving the table unchanged) and otherwise appends a row
with the next rowid. -/

structure UserRow where
  id : ℕ
  username : String
  password : String
deriving DecidableEq

/-- Modelled SQLite semantics of the INSERT INTO users statement under the
unique username constraint: none is the integrity error. -/
def insertUser (db : List UserRow) (u p : String) : Option (List UserRow) :=
  if db.any (fun r => decide (r.username = u)) then none
  else some (db ++ [⟨db.length + 1, u, p⟩])

/-- Embedding of DatabaseManager.create_user (db_utils.py lines 49 to 62)
over the users table state: an integrity error is caught and yields no
identifier with the table unchanged; otherwise the id of the inserted
username is selected back and returned. -/
def create_user (db : List UserRow) (u p : String) : Option ℕ × List UserRow :=
  match insertUser db u p with
  | none => (none, db)
  | some db1 =>
    match db1.find? (fun r => decide (r.username = u)) with
    | some r => (some r.id, db1)
    | none => (none, db1)

/-!
Feedback aggregation model for get_article_feedback. The SQL statement is a
single aggregate row: COUNT of the matching rows, AVG over their non-null
ratings, and SUM over a CASE expression for each of the two feedback
labels. Per SQLite semantics AVG and SUM return NULL when there is no
input row. The Python code then maps the row into a dict, where the
average passes through a truthiness test (both NULL and 0 become None) and
the two sums are passed through untouched. -/

structure FeedbackRow where
  user_id : ℤ
  article_url : String
  feedback : Option String
  rating : Option ℤ
deriving DecidableEq

/-- Return shape of get_article_feedback. -/
structure FeedbackAgg where
  total_feedback : ℕ
  average_rating : Option ℚ
  helpful_count : Option ℕ
  not_helpful_count : Option ℕ
deriving DecidableEq

/-- SQLite AVG over the non-null ratings of the rows: NULL when there is no
non-null input. -/
def sqlAvg (xs : List ℤ) : Option ℚ :=
  if xs.isEmpty then none else some ((xs.sum : ℚ) / xs.length)

/-- SQLite SUM of CASE WHEN feedback equals the label THEN 1 ELSE 0 END:
NULL when there is no input row, else the number of matching rows. -/
def sqlSumCase (rows : List FeedbackRow) (v : String) : Option ℕ :=
  if rows.isEmpty then none
  else some ((rows.filter (fun r => decide (r.feedback = some v))).length)

/-- The single aggregate row of the feedback query of db_utils.py lines 182
to 190, for a given table state and article url. -/
def feedbackQuery (tbl : List FeedbackRow) (url : String) :
    ℕ × Option ℚ × Option ℕ × Option ℕ :=
  let m := tbl.filter (fun r => decide (r.article_url = url))
  (m.length, sqlAvg (m.filterMap (fun r => r.rating)),
   sqlSumCase m "Helpful", sqlSumCase m "Not Helpful")

/-- Embedding of DatabaseManager.get_article_feedback (db_utils.py lines
180 to 205) on a successful query: the aggregate row always exists, so the
dict built on lines 194 to 199 is returned, with the Python truthiness
test on the average (None and 0 both map to None) and the raw sums. -/
def get_article_feedback (tbl : List FeedbackRow) (url : String) : FeedbackAgg :=
  let q := feedbackQuery tbl url
  { total_feedback := q.1,
    average_rating := match q.2.1 with
      | none => none
      | some a => if a = 0 then none else some a,
    helpful_count := q.2.2.1,
    not_helpful_count := q.2.2.2 }

/-!
### Text similarity (nlp_utils.py lines 181 to 190)

NLPProcessor.compute_text_similarity fits a TfidfVectorizer on exactly the
two input texts and returns the inner product of the two rows of the
resulting matrix. The vectorizer is modelled with its effective defaults:
the analyzer (tokenization, lowercasing, stop-word removal and the
max_features cut) is an oracle producing the final term list of each
document; term frequencies are raw counts; the inverse document frequency
is the smoothed logarithm ln((1 + n) / (1 + df)) + 1 with n = 2 documents;
rows are l2-normalized, a zero row staying zero; machine floats are
modelled over the reals. The code catches any exception, such as the
empty-vocabulary error the vectorizer raises when no term survives, and
returns 0.0. -/

/-- Vocabulary fitted on exactly the two input documents. -/
def tfidfVocab (tok : String → List String) (t1 t2 : String) : Finset String :=
  (tok t1).toFinset ∪ (tok t2).toFinset

/-- Raw term frequency of a term in a document. -/
def tf (tok : String → List String) (d : String) (w : String) : ℕ := (tok d).count w

/-- Document frequency of a term over the two fitted documents. -/
def df (tok : String → List String) (t1 t2 : String) (w : String) : ℕ :=
  (if w ∈ tok t1 then 1 else 0) + (if w ∈ tok t2 then 1 else 0)

/-- Smoothed inverse document frequency over the two fitted documents. -/
noncomputable def idf (tok : String → List String) (t1 t2 : String) (w : String) : ℝ :=
  Real.log (3 / (1 + (df tok t1 t2 w : ℝ))) + 1

/-- Unnormalized tf-idf weight of a term in one of the two documents. -/
noncomputable def tfidfVec (tok : String → List String) (t1 t2 d : String) (w : String) : ℝ :=
  (tf tok d w : ℝ) * idf tok t1 t2 w

/-- Euclidean norm of the tf-idf row of a document over the vocabulary. -/
noncomputable def l2norm (tok : String → List String) (t1 t2 d : String) : ℝ :=
  Real.sqrt (∑ w ∈ tfidfVocab tok t1 t2, (tfidfVec tok t1 t2 d w) ^ 2)

/-- The l2-normalized tf-idf row, a zero row staying zero, as the
vectorizer normalizes. -/
noncomputable def normalizedVec (tok : String → List String) (t1 t2 d : String) (w : String) : ℝ :=
  if l2norm tok t1 t2 d = 0 then tfidfVec tok t1 t2 d w
  else tfidfVec tok t1 t2 d w / l2norm tok t1 t2 d

/-- Embedding of NLPProcessor.compute_text_similarity: the inner product of
the two normalized tf-idf rows, or 0.0 when the vectorizer fails for want
of a vocabulary. -/
noncomputable def compute_text_similarity (tok : String → List String) (t1 t2 : String) : ℝ :=
  if tfidfVocab tok t1 t2 = ∅ then 0
  else ∑ w ∈ tfidfVocab tok t1 t2,
    normalizedVec tok t1 t2 t1 w * normalizedVec tok t1 t2 t2 w

/-- Cosine similarity of two vectors over an index set, stated from the
specification wording for comparison with the code embedding. -/
noncomputable def cosineSimilarity (s : Finset String) (u v : String → ℝ) : ℝ :=
  (∑ w ∈ s, u w * v w) /
    (Real.sqrt (∑ w ∈ s, u w ^ 2) * Real.sqrt (∑ w ∈ s, v w ^ 2))

/-!
### Theorems
-/

/-- Helper: find? for the key succeeds on the appended entry when no earlier
entry carries the key. -/
theorem find?_append_key {κ α : Type} [DecidableEq κ] (k : κ) (v : α) (t : ℕ)
    (l : List (κ × α × ℕ)) (h : ∀ e ∈ l, e.1 ≠ k) :
    (l ++ [(k, v, t)]).find? (fun e => decide (e.1 = k)) = some (k, v, t) := by
  induction l with
  | nil => simp [List.find?]
  | cons e l ih =>
    have he : e.1 ≠ k := h e (List.mem_cons_self e l)
    have hd : decide (e.1 = k) = false := by simp [he]
    simp only [List.cons_append, List.find?, hd]
    exact ih (fun e' he' => h e' (List.mem_cons_of_mem e he'))

/-- Helper: every entry surviving the expiry filter, key removal and
capacity eviction inside put carries a key different from the inserted one. -/
theorem mem_room_ne_key {κ α : Type} [DecidableEq κ] (c : TTLCache κ α) (k : κ) (now : ℕ) :
    ∀ e ∈ (let live := c.entries.filter (fun e => decide (now < e.2.2))
           let without := live.filter (fun e => decide (e.1 ≠ k))
           if c.maxsize ≤ without.length
           then without.drop (without.length + 1 - c.maxsize) else without),
      e.1 ≠ k := by
  intro e he
  simp only at he
  have hmem : e ∈ (c.entries.filter (fun e => decide (now < e.2.2))).filter
      (fun e => decide (e.1 ≠ k)) := by
    by_cases hcap : c.maxsize ≤
        ((c.entries.filter (fun e => decide (now < e.2.2))).filter
          (fun e => decide (e.1 ≠ k))).length
    · rw [if_pos hcap] at he
      exact (List.drop_subset _ _) he
    · rwa [if_neg hcap] at he
  have := List.of_mem_filter hmem
  simpa using this

/-- C7: a put immediately followed by a get of the same key returns the
value just stored, and once the configured ttl has elapsed since the
insertion, a get of the key reports a miss. -/
theorem ttlcache_put_get {κ α : Type} [DecidableEq κ]
    (c : TTLCache κ α) (k : κ) (v : α) (now later : ℕ) (httl : 0 < c.ttl) :
    TTLCache.get (TTLCache.put c k v now) k now = some v ∧
    (now + c.ttl ≤ later → TTLCache.get (TTLCache.put c k v now) k later = none) := by
  have hfind : ((TTLCache.put c k v now).entries).find? (fun e => decide (e.1 = k))
      = some (k, v, now + c.ttl) := by
    show ((if c.maxsize ≤ _ then _ else _) ++ [(k, v, now + c.ttl)]).find? _ = _
    exact find?_append_key k v (now + c.ttl) _ (mem_room_ne_key c k now)
  constructor
  · unfold TTLCache.get
    rw [hfind]
    simp only
    rw [if_pos (by omega)]
  · intro hlater
    unfold TTLCache.get
    rw [hfind]
    simp only
    rw [if_neg (by omega)]

/-- Witness for C7 at the NLP cache instance (maxsize 100, ttl 300). -/
theorem ttlcache_put_get_witness :
    TTLCache.get (TTLCache.put cache "k" "v" 0) "k" 0 = some "v" ∧
    TTLCache.get (TTLCache.put cache "k" "v" 0) "k" 300 = none := by
  refine ⟨(ttlcache_put_get cache "k" "v" 0 300 (by decide)).1, ?_⟩
  exact (ttlcache_put_get cache "k" "v" 0 300 (by decide)).2 (by decide)

/-- Helper: the threshold mapping only ever produces one of the three
sentiment labels. -/
theorem sentimentOfPolarity_mem (x : Option ℚ) :
    sentimentOfPolarity x = "positive" ∨ sentimentOfPolarity x = "neutral" ∨
    sentimentOfPolarity x = "negative" := by
  cases x with
  | none => exact Or.inr (Or.inl rfl)
  | some p =>
    simp only [sentimentOfPolarity]
    by_cases h1 : 1/10 < p
    · rw [if_pos h1]
      exact Or.inl rfl
    · rw [if_neg h1]
      by_cases h2 : p < -(1/10)
      · rw [if_pos h2]
        exact Or.inr (Or.inr rfl)
      · rw [if_neg h2]
        exact Or.inr (Or.inl rfl)

/-- Helper: on any nonempty text, analyze_sentiment returns exactly the
threshold mapping of the polarity oracle, provided the cache is well formed. -/
theorem analyze_sentiment_eq (polarity : String → Option ℚ) (c : List (String × String))
    (t : String) (hwf : wfSentCache polarity c) (ht : t ≠ "") :
    (analyze_sentiment polarity c (some t)).1 = sentimentOfPolarity (polarity t) := by
  cases hl : lookupAssoc c ("sentiment_" ++ t) with
  | some v =>
    have hv := hwf t v hl
    simp [analyze_sentiment, ht, hl, hv]
  | none =>
    cases hp : polarity t with
    | none => simp [analyze_sentiment, ht, hl, hp, sentimentOfPolarity]
    | some p => simp [analyze_sentiment, ht, hl, hp]

/-- C1: analyze_sentiment always returns one of positive, neutral, negative;
on nonempty text it applies the documented thresholds to the external
polarity score (positive above 0.1, negative below minus 0.1, neutral in
between); on missing or empty text it returns neutral without invoking the
external scorer. -/
theorem analyze_sentiment_spec (polarity : String → Option ℚ) (c : List (String × String))
    (text : Option String) (hwf : wfSentCache polarity c) :
    ((analyze_sentiment polarity c text).1 = "positive" ∨
     (analyze_sentiment polarity c text).1 = "neutral" ∨
     (analyze_sentiment polarity c text).1 = "negative") ∧
    (∀ t, text = some t → t ≠ "" →
       (analyze_sentiment polarity c text).1 = sentimentOfPolarity (polarity t)) ∧
    (∀ t p, text = some t → t ≠ "" → polarity t = some p →
       (1/10 < p → (analyze_sentiment polarity c text).1 = "positive") ∧
       (p < -(1/10) → (analyze_sentiment polarity c text).1 = "negative") ∧
       (-(1/10) ≤ p → p ≤ 1/10 → (analyze_sentiment polarity c text).1 = "neutral")) ∧
    ((text = none ∨ text = some "") →
       (analyze_sentiment polarity c text).1 = "neutral" ∧
       (analyze_sentiment polarity c text).2.2 = false) := by
  refine ⟨?_, ?_, ?_, ?_⟩
  · cases text with
    | none => simp [analyze_sentiment]
    | some t =>
      by_cases ht : t = ""
      · subst ht; simp [analyze_sentiment]
      · rw [analyze_sentiment_eq polarity c t hwf ht]
        exact sentimentOfPolarity_mem (polarity t)
  · intro t htext ht
    subst htext
    exact analyze_sentiment_eq polarity c t hwf ht
  · intro t p htext ht hp
    subst htext
    rw [analyze_sentiment_eq polarity c t hwf ht, hp]
    simp only [sentimentOfPolarity]
    refine ⟨fun h1 => ?_, fun h2 => ?_, fun h3 h4 => ?_⟩
    · rw [if_pos h1]
    · rw [if_neg (by linarith : ¬ (1/10 < p)), if_pos h2]
    · rw [if_neg (by linarith : ¬ (1/10 < p)), if_neg (by linarith : ¬ (p < -(1/10)))]
  · intro hempty
    rcases hempty with h | h <;> subst h <;> simp [analyze_sentiment]

/-- Witness for C1: a polarity of one half yields positive on the text
"good" with an empty cache, and missing text yields neutral. -/
theorem analyze_sentiment_spec_witness :
    (analyze_sentiment (fun _ => some (1/2)) [] (some "good")).1 = "positive" ∧
    (analyze_sentiment (fun _ => some (1/2)) [] none).1 = "neutral" := by
  have hwf : wfSentCache (fun _ => some (1/2)) [] := by
    intro t v h
    simp [lookupAssoc] at h
  constructor
  · exact ((analyze_sentiment_spec (fun _ => some (1/2)) [] (some "good") hwf).2.2.1
      "good" (1/2) rfl (by decide) rfl).1 (by norm_num)
  · exact ((analyze_sentiment_spec (fun _ => some (1/2)) [] none hwf).2.2.2
      (Or.inl rfl)).1

/-- Helper: every element produced by uniqueKeysAux occurs in the scanned
list. -/
theorem uniqueKeysAux_subset :
    ∀ (l seen : List String) (x : String), x ∈ uniqueKeysAux l seen → x ∈ l := by
  intro l
  induction l with
  | nil => intro seen x hx; simp [uniqueKeysAux] at hx
  | cons w ws ih =>
    intro seen x hx
    simp only [uniqueKeysAux] at hx
    by_cases hw : w ∈ seen
    · rw [if_pos hw] at hx
      exact List.mem_cons_of_mem w (ih seen x hx)
    · rw [if_neg hw] at hx
      rcases List.mem_cons.mp hx with h | h
      · exact h ▸ List.mem_cons_self w ws
      · exact List.mem_cons_of_mem w (ih (w :: seen) x h)

/-- Helper: every entry of most_common pairs an element of the input list
with its positive occurrence count, the result is sorted by count
descending, and it has at most n entries. -/
theorem most_common_spec (n : ℕ) (l : List String) :
    (most_common n l).length ≤ n ∧
    (∀ p ∈ most_common n l, 1 ≤ p.2 ∧ p.1 ∈ l) ∧
    List.Chain' (fun x y : String × ℕ => y.2 ≤ x.2) (most_common n l) := by
  refine ⟨?_, ?_, ?_⟩
  · simp [most_common]
  · intro p hp
    have hp1 : p ∈ List.insertionSort countGE (counterItems l) :=
      List.mem_of_mem_take hp
    have hp2 : p ∈ counterItems l :=
      (List.perm_insertionSort countGE (counterItems l)).mem_iff.mp hp1
    simp only [counterItems, List.mem_map] at hp2
    obtain ⟨w, hw, hpw⟩ := hp2
    have hwl : w ∈ l := uniqueKeysAux_subset l [] w hw
    subst hpw
    exact ⟨List.count_pos_iff.mpr hwl, hwl⟩
  · have hs : List.Pairwise countGE (List.insertionSort countGE (counterItems l)) :=
      List.sorted_insertionSort countGE (counterItems l)
    have ht : List.Pairwise countGE (most_common n l) :=
      hs.sublist (List.take_sublist n _)
    exact ht.chain'

/-- C2 is false as stated: extract_keywords with top_n equal to one returns
two entries when an earlier call on the same text with top_n equal to ten
populated the cache, because the cache key ignores top_n. -/
theorem extract_keywords_counterexample :
    ((extract_keywords tokCE ((extract_keywords tokCE [] (some "t") 10).2)
      (some "t") 1).1).length = 2 := by decide

/-- C2 amended: whenever the text is not already cached (the computed
path), extract_keywords returns at most n entries, each counting at least
one occurrence of a term drawn from the filtered lowercased tokens of the
input, sorted by count descending. -/
theorem extract_keywords_spec (tok : String → List Token)
    (c : List (String × List (String × ℕ))) (text : Option String) (n : ℕ)
    (hmiss : ∀ t, text = some t → lookupAssoc c ("keywords_" ++ t) = none) :
    (extract_keywords tok c text n).1.length ≤ n ∧
    (∀ p ∈ (extract_keywords tok c text n).1,
       1 ≤ p.2 ∧ ∃ t, text = some t ∧ p.1 ∈ keywordsOf tok t) ∧
    List.Chain' (fun x y : String × ℕ => y.2 ≤ x.2) (extract_keywords tok c text n).1 := by
  cases text with
  | none => simp [extract_keywords]
  | some t =>
    by_cases ht : t = ""
    · subst ht
      simp [extract_keywords]
    · have hl := hmiss t rfl
      have hres : (extract_keywords tok c (some t) n).1 = most_common n (keywordsOf tok t) := by
        simp [extract_keywords, ht, hl]
      rw [hres]
      obtain ⟨h1, h2, h3⟩ := most_common_spec n (keywordsOf tok t)
      exact ⟨h1, fun p hp => ⟨(h2 p hp).1, t, rfl, (h2 p hp).2⟩, h3⟩

/-- Witness for C2 amended: on an empty cache the computed path returns at
most three entries, sorted by count descending. -/
theorem extract_keywords_spec_witness :
    ((extract_keywords tokCE [] (some "t") 3).1).length ≤ 3 ∧
    List.Chain' (fun x y : String × ℕ => y.2 ≤ x.2)
      ((extract_keywords tokCE [] (some "t") 3).1) := by
  have h : ∀ t, (some "t" : Option String) = some t →
      lookupAssoc ([] : List (String × List (String × ℕ))) ("keywords_" ++ t) = none :=
    fun t _ => rfl
  exact ⟨(extract_keywords_spec tokCE [] (some "t") 3 h).1,
    (extract_keywords_spec tokCE [] (some "t") 3 h).2.2⟩

/-- C3: enrich_articles drops no article; positionally, a failing article
is passed through unchanged and a succeeding one is replaced by its
enrichment; and the enrichment of an article with no description field
always carries a sentiment value, computed from the title alone (joined
with the trailing space the f-string inserts). -/
theorem enrich_articles_spec (step : Article → Option Article) (articles : List Article) :
    (enrich_articles step articles).length = articles.length ∧
    (∀ (i : ℕ) (a : Article), articles[i]? = some a → step a = none →
       (enrich_articles step articles)[i]? = some a) ∧
    (∀ (i : ℕ) (a : Article), articles[i]? = some a →
       (enrich_articles step articles)[i]? = some ((step a).getD a)) ∧
    (∀ (O : NLPOracles) (a : Article), a.description = none →
       (enrichArticle O a).sentiment =
         some (analyze_sentiment O.polarity O.scache (some ((a.title.getD "") ++ " "))).1) := by
  refine ⟨by simp [enrich_articles], ?_, ?_, ?_⟩
  · intro i a ha hstep
    simp [enrich_articles, ha, hstep]
  · intro i a ha
    simp [enrich_articles, ha]
  · intro O a hdesc
    have htext : (a.title.getD "") ++ " " ++ (a.description.getD "") =
        (a.title.getD "") ++ " " := by
      rw [hdesc]
      simp
    unfold enrichArticle
    rw [htext]
    cases a.url with
    | none => rfl
    | some u => by_cases hu : u = "" <;> simp [hu]

/-- Witness for C3: a one-article list whose step fails is passed through,
and an article with title only still receives a sentiment. -/
theorem enrich_articles_spec_witness :
    (enrich_articles (fun _ => none) [articleCE]).length = 1 ∧
    (enrich_articles (fun _ => none) [articleCE])[0]? = some articleCE ∧
    (enrichArticle oraclesCE articleCE).sentiment =
      some (analyze_sentiment oraclesCE.polarity oraclesCE.scache
        (some ((articleCE.title.getD "") ++ " "))).1 := by
  refine ⟨(enrich_articles_spec (fun _ => none) [articleCE]).1, ?_, ?_⟩
  · exact (enrich_articles_spec (fun _ => none) [articleCE]).2.1 0 articleCE rfl rfl
  · exact (enrich_articles_spec (fun _ => none) [articleCE]).2.2.2 oraclesCE articleCE rfl

/-- C8 is false as stated: when the first request fails, nothing is cached,
and the second identical call within the ttl issues a second outbound
request, two in total rather than exactly one. -/
theorem get_top_headlines_counterexample :
    ((get_top_headlines httpFail "key" some
      ((get_top_headlines httpFail "key" some st0 (some "us") none none 20 1 0).2)
      (some "us") none none 20 1 60).2).requests = 2 := rfl

/-- Helper: a lookup in a cache with no entries misses. -/
theorem ttlcache_get_of_empty {κ α : Type} [DecidableEq κ]
    (c : TTLCache κ α) (k : κ) (now : ℕ) (h : c.entries = []) :
    TTLCache.get c k now = none := by
  unfold TTLCache.get
  rw [h]
  rfl

/-- Helper: a put on a cache with no entries yields exactly one entry, the
inserted one, whatever the capacity. -/
theorem ttlcache_put_of_empty {κ α : Type} [DecidableEq κ]
    (c : TTLCache κ α) (k : κ) (v : α) (now : ℕ) (h : c.entries = []) :
    (TTLCache.put c k v now).entries = [(k, v, now + c.ttl)] := by
  unfold TTLCache.put
  rw [h]
  simp

/-- Helper: a get of the key just put into a previously empty cache hits as
long as the expiry time has not been reached. -/
theorem ttlcache_get_put_of_empty {κ α : Type} [DecidableEq κ]
    (c : TTLCache κ α) (k : κ) (v : α) (t1 t2 : ℕ) (h : c.entries = [])
    (ht : t2 < t1 + c.ttl) :
    TTLCache.get (TTLCache.put c k v t1) k t2 = some v := by
  have hfind : (([] : List (κ × α × ℕ)) ++ [(k, v, t1 + c.ttl)]).find?
      (fun e => decide (e.1 = k)) = some (k, v, t1 + c.ttl) :=
    find?_append_key k v (t1 + c.ttl) [] (by simp)
  rw [List.nil_append] at hfind
  unfold TTLCache.get
  rw [ttlcache_put_of_empty c k v t1 h, hfind]
  simp only
  rw [if_pos ht]

/-- Helper: the state component of the response-matching tail shared by
get_top_headlines and search_everything is the state of the request. -/
theorem headlines_state (step : Article → Option Article) (pr : Option Resp × ClientState) :
    (match pr.1 with
      | some data =>
        match data.articles with
        | some arts => (enrich_articles step arts, pr.2)
        | none => ([], pr.2)
      | none => ([], pr.2)).2 = pr.2 := by
  rcases pr with ⟨r, s⟩
  cases r with
  | none => rfl
  | some data =>
    rcases data with ⟨stt, arts⟩
    cases arts <;> rfl

/-- Helper: the client state left by get_top_headlines is the one left by
its underlying request. -/
theorem get_top_headlines_state (http : ℕ → Option Resp) (api_key : String)
    (step : Article → Option Article) (st : ClientState)
    (country category q : Option String) (page_size page now : ℕ) :
    (get_top_headlines http api_key step st country category q page_size page now).2 =
      (make_request http api_key st ""
        (headlinesParams country category q page_size page) now).2 :=
  headlines_state step _

/-- C8 amended: starting from a client whose response cache is empty, if
the first outbound request succeeds with an ok status, then a second
get_top_headlines call with the same filter set before the cache ttl
elapses changes nothing (it is answered from the response cache, issuing no
outbound request), and the pair of calls performs exactly one outbound
request in total. -/
theorem get_top_headlines_cached (http : ℕ → Option Resp) (api_key : String)
    (step : Article → Option Article) (st : ClientState)
    (country category q : Option String) (page_size page : ℕ)
    (now1 now2 : ℕ) (resp : Resp)
    (hfresh : st.news_cache.entries = [])
    (hhttp : http st.requests = some resp)
    (hok : resp.status = "ok")
    (h2 : now2 < now1 + st.news_cache.ttl) :
    (get_top_headlines http api_key step
        ((get_top_headlines http api_key step st country category q page_size page now1).2)
        country category q page_size page now2).2 =
      (get_top_headlines http api_key step st country category q page_size page now1).2 ∧
    ((get_top_headlines http api_key step st country category q page_size page now1).2).requests =
      st.requests + 1 := by
  have hget1 : st.news_cache.get ("", sortParams
      (headlinesParams country category q page_size page ++ [("apiKey", PVal.str api_key)])) now1
      = none := ttlcache_get_of_empty _ _ _ hfresh
  have hmr1 : make_request http api_key st ""
      (headlinesParams country category q page_size page) now1 =
      (some resp, ⟨st.news_cache.put ("", sortParams
        (headlinesParams country category q page_size page ++ [("apiKey", PVal.str api_key)]))
        resp now1, st.requests + 1⟩) := by
    unfold make_request
    simp only [hget1, hhttp, hok]
    simp
  have hst1 : (get_top_headlines http api_key step st country category q page_size page now1).2 =
      ⟨st.news_cache.put ("", sortParams
        (headlinesParams country category q page_size page ++ [("apiKey", PVal.str api_key)]))
        resp now1, st.requests + 1⟩ := by
    rw [get_top_headlines_state, hmr1]
  refine ⟨?_, by rw [hst1]⟩
  have hget2 : (st.news_cache.put ("", sortParams
      (headlinesParams country category q page_size page ++ [("apiKey", PVal.str api_key)]))
      resp now1).get ("", sortParams
      (headlinesParams country category q page_size page ++ [("apiKey", PVal.str api_key)])) now2
      = some resp := ttlcache_get_put_of_empty _ _ _ _ _ hfresh h2
  have hmr2 : make_request http api_key
      ⟨st.news_cache.put ("", sortParams
        (headlinesParams country category q page_size page ++ [("apiKey", PVal.str api_key)]))
        resp now1, st.requests + 1⟩ ""
      (headlinesParams country category q page_size page) now2 =
      (some resp, ⟨st.news_cache.put ("", sortParams
        (headlinesParams country category q page_size page ++ [("apiKey", PVal.str api_key)]))
        resp now1, st.requests + 1⟩) := by
    unfold make_request
    simp only [hget2]
  rw [hst1, get_top_headlines_state, hmr2]

/-- Witness for C8 amended: a fresh client calling twice with the same
filter set at times 0 and 60 against an always-ok transport changes
nothing on the second call and issues exactly one request. -/
theorem get_top_headlines_cached_witness :
    (get_top_headlines httpOK "key" some
        ((get_top_headlines httpOK "key" some st0 (some "us") none none 20 1 0).2)
        (some "us") none none 20 1 60).2 =
      (get_top_headlines httpOK "key" some st0 (some "us") none none 20 1 0).2 ∧
    ((get_top_headlines httpOK "key" some st0 (some "us") none none 20 1 0).2).requests =
      0 + 1 := by
  exact get_top_headlines_cached httpOK "key" some st0 (some "us") none none 20 1 0 60
    respOK rfl rfl rfl (by decide)

/-- C10: both headline and search parameter sets send a pageSize of
min(page_size, 100) and pass the page number through unclamped. -/
theorem page_size_clamped (country category q : Option String)
    (q2 : String) (from_date to_date : Option String) (language sort_by : String)
    (page_size page : ℕ) :
    lookupAssoc (headlinesParams country category q page_size page) "pageSize"
      = some (PVal.nat (min page_size 100)) ∧
    lookupAssoc (headlinesParams country category q page_size page) "page"
      = some (PVal.nat page) ∧
    lookupAssoc (searchParams q2 from_date to_date language sort_by page_size page) "pageSize"
      = some (PVal.nat (min page_size 100)) ∧
    lookupAssoc (searchParams q2 from_date to_date language sort_by page_size page) "page"
      = some (PVal.nat page) :=
  ⟨rfl, rfl, rfl, rfl⟩

/-- C4 is false as stated: a driver failure inside get_user propagates to
the caller as a raised exception instead of being converted to the
documented empty value, because get_user has no exception handler and
execute_query re-raises. -/
theorem db_failure_counterexample :
    get_user (fun _ _ => Except.error "disk error") "alice" = Except.error "disk error" := rfl

/-- C4 amended: the failure policy is per operation, not uniform. The write
helpers that wrap execute_query in a broad try block
(update_user_preferences, add_reading_history, and likewise
add_article_feedback and cache_article) convert any driver failure into
their documented False return; but execute_query itself re-raises driver
errors after rollback, and the operations without their own handler
(get_user, verify_user, and likewise get_user_preferences,
get_reading_history, get_article_feedback, get_cached_article,
cleanup_old_cache) propagate the exception to the caller. -/
theorem db_failure_policy (e : String) (query : String) (params : List SQLValue)
    (fetch : Bool) (username password : String) (user_id : ℤ) (p : Preferences)
    (url : String) (title category : Option String) :
    execute_query (fun _ _ => Except.error e) query params fetch = Except.error e ∧
    get_user (fun _ _ => Except.error e) username = Except.error e ∧
    verify_user (fun _ _ => Except.error e) username password = Except.error e ∧
    update_user_preferences (fun _ _ => Except.error e) user_id p = Except.ok false ∧
    add_reading_history (fun _ _ => Except.error e) user_id (some url) title category
      = Except.ok false :=
  ⟨rfl, rfl, rfl, rfl, rfl⟩

/-- C6: creating the same username twice has the second call return no
identifier and leave the table exactly as the first call left it (in
particular the first user row is unchanged). -/
theorem create_user_duplicate (db : List UserRow) (u p p2 : String) :
    create_user ((create_user db u p).2) u p2 = (none, (create_user db u p).2) := by
  have hsnd : ∀ db1 : List UserRow,
      (match db1.find? (fun (r : UserRow) => decide (r.username = u)) with
        | some r => (some r.id, db1)
        | none => ((none : Option ℕ), db1)).2 = db1 := by
    intro db1
    cases db1.find? (fun (r : UserRow) => decide (r.username = u)) <;> rfl
  have hstep : ∀ db1 : List UserRow, db1.any (fun r => decide (r.username = u)) = true →
      create_user db1 u p2 = (none, db1) := by
    intro db1 h1
    unfold create_user insertUser
    rw [if_pos h1]
  have key : (db.any (fun r => decide (r.username = u)) = true ∧
      create_user db u p = (none, db)) ∨
      (create_user db u p).2 = db ++ [⟨db.length + 1, u, p⟩] := by
    unfold create_user insertUser
    by_cases hdup : db.any (fun r => decide (r.username = u)) = true
    · rw [if_pos hdup]
      exact Or.inl ⟨hdup, rfl⟩
    · rw [if_neg hdup]
      exact Or.inr (hsnd (db ++ [⟨db.length + 1, u, p⟩]))
  have hmem : ((create_user db u p).2).any (fun r => decide (r.username = u)) = true := by
    rcases key with ⟨hdup, h⟩ | h
    · rw [h]
      exact hdup
    · rw [h, List.any_append]
      simp
  exact hstep _ hmem

/-- C5 is false as stated: on an article with zero feedback rows the code
returns none for the helpful and not-helpful counts, not zero, because the
SQL SUM aggregates over zero rows are NULL. -/
theorem get_article_feedback_counterexample :
    get_article_feedback [] "u" ≠ ⟨0, none, some 0, some 0⟩ := by decide

/-- C5 amended: for every article url with zero matching feedback rows,
get_article_feedback returns total_feedback zero, average_rating none,
helpful_count none and not_helpful_count none. -/
theorem get_article_feedback_empty (tbl : List FeedbackRow) (url : String)
    (h : tbl.filter (fun r => decide (r.article_url = url)) = []) :
    get_article_feedback tbl url = ⟨0, none, none, none⟩ := by
  simp [get_article_feedback, feedbackQuery, sqlAvg, sqlSumCase, h]

/-- Witness for C5 amended at a table whose single row concerns another
article. -/
theorem get_article_feedback_empty_witness :
    get_article_feedback [⟨1, "a", some "Helpful", some 5⟩] "b" = ⟨0, none, none, none⟩ :=
  get_article_feedback_empty [⟨1, "a", some "Helpful", some 5⟩] "b" (by decide)

/-- Helper: the smoothed idf over two documents is nonnegative. -/
theorem idf_nonneg (tok : String → List String) (t1 t2 w : String) :
    0 ≤ idf tok t1 t2 w := by
  have hdfn : df tok t1 t2 w ≤ 2 := by
    unfold df
    split_ifs <;> omega
  have hdf : (df tok t1 t2 w : ℝ) ≤ 2 := by exact_mod_cast hdfn
  have hpos : (0 : ℝ) < 1 + (df tok t1 t2 w : ℝ) := by positivity
  have h1 : (1 : ℝ) ≤ 3 / (1 + (df tok t1 t2 w : ℝ)) := by
    rw [le_div_iff₀ hpos]
    linarith
  have hlog := Real.log_nonneg h1
  unfold idf
  linarith

/-- Helper: tf-idf weights are nonnegative. -/
theorem tfidfVec_nonneg (tok : String → List String) (t1 t2 d w : String) :
    0 ≤ tfidfVec tok t1 t2 d w :=
  mul_nonneg (Nat.cast_nonneg _) (idf_nonneg tok t1 t2 w)

/-- Helper: a document whose tf-idf row has zero norm has a zero row on the
vocabulary. -/
theorem l2norm_eq_zero_imp (tok : String → List String) (t1 t2 d : String)
    (h : l2norm tok t1 t2 d = 0) :
    ∀ w ∈ tfidfVocab tok t1 t2, tfidfVec tok t1 t2 d w = 0 := by
  intro w hw
  have hsum0 : ∑ w ∈ tfidfVocab tok t1 t2, (tfidfVec tok t1 t2 d w) ^ 2 = 0 := by
    have hle := Real.sqrt_eq_zero'.mp h
    have hge : 0 ≤ ∑ w ∈ tfidfVocab tok t1 t2, (tfidfVec tok t1 t2 d w) ^ 2 :=
      Finset.sum_nonneg (fun w _ => sq_nonneg _)
    linarith
  have := (Finset.sum_eq_zero_iff_of_nonneg (fun w _ => sq_nonneg
    (tfidfVec tok t1 t2 d w))).mp hsum0 w hw
  exact pow_eq_zero_iff (by norm_num) |>.mp this

/-- C9: compute_text_similarity always returns a value in the unit
interval, that value is exactly the cosine similarity of the tf-idf
representations fitted on the two input texts, and an internal failure
(the vectorizer finding no vocabulary) returns zero. -/
theorem compute_text_similarity_spec (tok : String → List String) (t1 t2 : String) :
    0 ≤ compute_text_similarity tok t1 t2 ∧
    compute_text_similarity tok t1 t2 ≤ 1 ∧
    compute_text_similarity tok t1 t2 =
      cosineSimilarity (tfidfVocab tok t1 t2) (tfidfVec tok t1 t2 t1) (tfidfVec tok t1 t2 t2) ∧
    (tfidfVocab tok t1 t2 = ∅ → compute_text_similarity tok t1 t2 = 0) := by
  by_cases hv : tfidfVocab tok t1 t2 = ∅
  · refine ⟨?_, ?_, ?_, fun _ => ?_⟩ <;>
      simp [compute_text_similarity, cosineSimilarity, hv]
  · have hsim : compute_text_similarity tok t1 t2 =
        ∑ w ∈ tfidfVocab tok t1 t2,
          normalizedVec tok t1 t2 t1 w * normalizedVec tok t1 t2 t2 w := by
      unfold compute_text_similarity
      rw [if_neg hv]
    have hNa := Real.sqrt_nonneg
      (∑ w ∈ tfidfVocab tok t1 t2, (tfidfVec tok t1 t2 t1 w) ^ 2)
    have hNb := Real.sqrt_nonneg
      (∑ w ∈ tfidfVocab tok t1 t2, (tfidfVec tok t1 t2 t2 w) ^ 2)
    have hcos : cosineSimilarity (tfidfVocab tok t1 t2) (tfidfVec tok t1 t2 t1)
        (tfidfVec tok t1 t2 t2) =
        (∑ w ∈ tfidfVocab tok t1 t2, tfidfVec tok t1 t2 t1 w * tfidfVec tok t1 t2 t2 w) /
          (l2norm tok t1 t2 t1 * l2norm tok t1 t2 t2) := rfl
    by_cases ha : l2norm tok t1 t2 t1 = 0
    · have hzero : ∀ w ∈ tfidfVocab tok t1 t2, tfidfVec tok t1 t2 t1 w = 0 :=
        l2norm_eq_zero_imp tok t1 t2 t1 ha
      have hsim0 : compute_text_similarity tok t1 t2 = 0 := by
        rw [hsim]
        apply Finset.sum_eq_zero
        intro w hw
        unfold normalizedVec
        rw [if_pos ha, hzero w hw, zero_mul]
      have hcos0 : cosineSimilarity (tfidfVocab tok t1 t2) (tfidfVec tok t1 t2 t1)
          (tfidfVec tok t1 t2 t2) = 0 := by
        rw [hcos, ha, zero_mul, div_zero]
      exact ⟨by rw [hsim0], by rw [hsim0]; norm_num, by rw [hsim0, hcos0], fun h => hsim0⟩
    · by_cases hb : l2norm tok t1 t2 t2 = 0
      · have hzero : ∀ w ∈ tfidfVocab tok t1 t2, tfidfVec tok t1 t2 t2 w = 0 :=
          l2norm_eq_zero_imp tok t1 t2 t2 hb
        have hsim0 : compute_text_similarity tok t1 t2 = 0 := by
          rw [hsim]
          apply Finset.sum_eq_zero
          intro w hw
          unfold normalizedVec
          rw [if_pos hb, hzero w hw, mul_zero]
        have hcos0 : cosineSimilarity (tfidfVocab tok t1 t2) (tfidfVec tok t1 t2 t1)
            (tfidfVec tok t1 t2 t2) = 0 := by
          rw [hcos, hb, mul_zero, div_zero]
        exact ⟨by rw [hsim0], by rw [hsim0]; norm_num, by rw [hsim0, hcos0], fun h => hsim0⟩
      · have hapos : 0 < l2norm tok t1 t2 t1 := lt_of_le_of_ne hNa (Ne.symm ha)
        have hbpos : 0 < l2norm tok t1 t2 t2 := lt_of_le_of_ne hNb (Ne.symm hb)
        have hdiv : compute_text_similarity tok t1 t2 =
            (∑ w ∈ tfidfVocab tok t1 t2,
              tfidfVec tok t1 t2 t1 w * tfidfVec tok t1 t2 t2 w) /
              (l2norm tok t1 t2 t1 * l2norm tok t1 t2 t2) := by
          rw [hsim]
          have hterm : ∀ w ∈ tfidfVocab tok t1 t2,
              normalizedVec tok t1 t2 t1 w * normalizedVec tok t1 t2 t2 w =
              (tfidfVec tok t1 t2 t1 w * tfidfVec tok t1 t2 t2 w) /
                (l2norm tok t1 t2 t1 * l2norm tok t1 t2 t2) := by
            intro w _
            unfold normalizedVec
            rw [if_neg ha, if_neg hb]
            exact div_mul_div_comm _ _ _ _
          rw [Finset.sum_congr rfl hterm, ← Finset.sum_div]
        have hnum_nonneg : 0 ≤ ∑ w ∈ tfidfVocab tok t1 t2,
            tfidfVec tok t1 t2 t1 w * tfidfVec tok t1 t2 t2 w :=
          Finset.sum_nonneg (fun w _ =>
            mul_nonneg (tfidfVec_nonneg tok t1 t2 t1 w) (tfidfVec_nonneg tok t1 t2 t2 w))
        have hcs : ∑ w ∈ tfidfVocab tok t1 t2,
            tfidfVec tok t1 t2 t1 w * tfidfVec tok t1 t2 t2 w ≤
            l2norm tok t1 t2 t1 * l2norm tok t1 t2 t2 :=
          Real.sum_mul_le_sqrt_mul_sqrt (tfidfVocab tok t1 t2) _ _
        refine ⟨?_, ?_, by rw [hdiv, hcos], fun h => absurd h hv⟩
        · rw [hdiv]
          exact div_nonneg hnum_nonneg (le_of_lt (mul_pos hapos hbpos))
        · rw [hdiv]
          exact (div_le_one (mul_pos hapos hbpos)).mpr hcs

/-- Witness for C9: a tokenizer producing no terms leaves the vectorizer
without a vocabulary, and the similarity is zero and within bounds. -/
theorem compute_text_similarity_spec_witness :
    0 ≤ compute_text_similarity (fun _ => []) "a" "b" ∧
    compute_text_similarity (fun _ => []) "a" "b" = 0 :=
  ⟨(compute_text_similarity_spec (fun _ => []) "a" "b").1,
   (compute_text_similarity_spec (fun _ => []) "a" "b").2.2.2 rfl⟩
